import Mathlib

/-!
Verification of `viewer.py` (PDF image extractor and viewer).

The Python module has two phases:
* a module-level startup script: argument parsing, `PdfReader` construction,
  and (unless the `-b` flag is given) purging and repopulating the `images`
  folder with the embedded images of each PDF page;
* the `ImageViewer` Qt window: a sorted file list, a `current_index`, and
  wheel / key / resize handlers navigating the list modulo its length.

Machine integers are modelled as `Int`/`Nat`; Python's `%` on a zero divisor
raises `ZeroDivisionError`, modelled as `none`; Python list indexing with its
negative-index rule and `IndexError` is modelled by `pyGet`.
-/

/-- Decimal formatting of `f"{n:06d}"`: the decimal digits of `n`,
left-padded with zeros to a width of at least 6. -/
def pad6 (n : Nat) : String :=
  let s := toString n
  if s.length < 6 then String.mk (List.replicate (6 - s.length) '0') ++ s else s

/-- The path the extraction loop saves image number `icount` to:
`f"images/image_{icount:06d}.png"` (line 64 of `viewer.py`). -/
def imageFilePath (icount : Nat) : String :=
  "images/image_" ++ pad6 icount ++ ".png"

/-- Boolean prefix test on character lists. -/
def isPrefList : List Char → List Char → Bool
  | [], _ => true
  | _ :: _, [] => false
  | a :: as, b :: bs => a = b && isPrefList as bs

/-- Boolean suffix test on character lists. -/
def isSuffList (suffix s : List Char) : Bool :=
  isPrefList suffix.reverse s.reverse

/-- The set of directory entries matched by `glob("images/*.png")`
(line 55 of `viewer.py`), as a predicate on a file name inside `images/`:
the glob star matches any run of characters of a non-hidden name (a name
whose first character is a dot is never matched by `*`), followed by the
literal `.png`. -/
def matchesPngGlob (name : String) : Bool :=
  match name.data with
  | [] => false
  | c :: _ => decide (c ≠ '.') && isSuffList ".png".data name.data

/-- Digit test used to describe the spec's image-output naming pattern. -/
def isDigitChar (c : Char) : Bool :=
  decide ('0' ≤ c) && decide (c ≤ '9')

/-- Modelled from the spec: the image-output naming pattern
`image_NNNNNN.png` (a 6-digit zero-padded decimal between the fixed
prefix `image_` and the fixed extension `.png`).  This definition follows
the spec's words and is compared against the purge behaviour of the code,
which uses the broader glob `*.png`. -/
def matchesImageOutputPattern (name : String) : Bool :=
  decide (name.length = 16) &&
  isPrefList "image_".data name.data &&
  isSuffList ".png".data name.data &&
  (name.data.drop 6 |>.take 6).all isDigitChar

-- ============================================================================
-- Extractor (lines 59-67 of `viewer.py`)
-- ============================================================================

/-- One pass of `for i, image_file_object in enumerate(page.images)`
(lines 62-67): every image of the page is saved, in the page's intrinsic
order, to `imageFilePath` of the running global counter.  Each save is
recorded as `(pageIdx, path)` where `pageIdx` is the document-order index
of the page the image came from. -/
def savePage {α : Type} (icount pageIdx : Nat) (imgs : List α) : List (Nat × String) :=
  imgs.enum.map (fun p => (pageIdx, imageFilePath (icount + p.1)))

/-- The outer loop `for page in tqdm(reader.pages)` (lines 60-67), with the
global counter `icount` threaded across pages. -/
def extractFrom {α : Type} (icount pageIdx : Nat) : List (List α) → List (Nat × String)
  | [] => []
  | page :: rest =>
      savePage icount pageIdx page ++ extractFrom (icount + page.length) (pageIdx + 1) rest

/-- The whole extraction loop, starting from `icount = 0` (line 59). -/
def extractImages {α : Type} (pages : List (List α)) : List (Nat × String) :=
  extractFrom 0 0 pages

/-- Total number of embedded images over all pages. -/
def totalImages {α : Type} (pages : List (List α)) : Nat :=
  (pages.map List.length).sum

lemma savePage_snd {α : Type} (icount pageIdx : Nat) (imgs : List α) :
    (savePage icount pageIdx imgs).map Prod.snd
      = (List.range' icount imgs.length).map imageFilePath := by
  simp only [savePage, List.map_map]
  have h1 : ((fun p => (pageIdx, imageFilePath (icount + p.1))) ∘
      (fun p : Nat × α => p)) = (fun p : Nat × α => (pageIdx, imageFilePath (icount + p.1))) := rfl
  have : (imgs.enum.map (fun p => Prod.snd (pageIdx, imageFilePath (icount + p.1))))
      = imgs.enum.map (fun p => imageFilePath (icount + p.1)) := rfl
  calc imgs.enum.map (Prod.snd ∘ fun p => (pageIdx, imageFilePath (icount + p.1)))
      = imgs.enum.map ((fun j => imageFilePath (icount + j)) ∘ Prod.fst) := rfl
    _ = (imgs.enum.map Prod.fst).map (fun j => imageFilePath (icount + j)) := by
        rw [List.map_map]
    _ = (List.range imgs.length).map (fun j => imageFilePath (icount + j)) := by
        rw [List.enum_map_fst]
    _ = (List.range' icount imgs.length).map imageFilePath := by
        rw [List.range'_eq_map_range]
        rw [List.map_map]
        rfl

lemma range'_split (s m n : Nat) :
    List.range' s (m + n) = List.range' s m ++ List.range' (s + m) n := by
  have h := List.range'_append s m n 1
  simp only [one_mul] at h
  rw [Nat.add_comm m n]
  exact h.symm

lemma extractFrom_snd {α : Type} (pages : List (List α)) :
    ∀ icount pageIdx,
      (extractFrom icount pageIdx pages).map Prod.snd
        = (List.range' icount (totalImages pages)).map imageFilePath := by
  induction pages with
  | nil => intro icount pageIdx; simp [extractFrom, totalImages]
  | cons page rest ih =>
      intro icount pageIdx
      simp only [extractFrom, List.map_append, savePage_snd, ih]
      have : totalImages (page :: rest) = page.length + totalImages rest := by
        simp [totalImages]
      rw [this, range'_split icount page.length (totalImages rest), List.map_append]

/-- C2: extraction visits pages in document order and each page's images in
their intrinsic order, and the saved file names are exactly
`image_000000.png, image_000001.png, ...` driven by one global counter that
is incremented after every image regardless of page: the name list equals
`imageFilePath` mapped over `0, ..., total - 1`.  In particular for a
document with two pages holding 2 and 1 images, the saves are exactly
`image_000000.png`, `image_000001.png` (both from page 0) and
`image_000002.png` (from page 1), in that order. -/
theorem extraction_global_counter :
    (∀ (pages : List (List Nat)),
        (extractImages pages).map Prod.snd
          = (List.range (totalImages pages)).map imageFilePath) ∧
    extractImages [[10, 20], [30]]
      = [(0, "images/image_000000.png"), (0, "images/image_000001.png"),
         (1, "images/image_000002.png")] := by
  constructor
  · intro pages
    rw [extractImages, extractFrom_snd pages 0 0, List.range_eq_range']
  · decide

-- ============================================================================
-- Module-level startup script (lines 21-67 of `viewer.py`)
-- ============================================================================

/-- A filesystem side effect of the startup script on the `images` folder. -/
inductive FsEffect where
  | mkdirImages : FsEffect
  | removeFile : String → FsEffect
  | writeFile : String → FsEffect
deriving DecidableEq, Repr

/-- The message printed at line 24 when no PDF argument is given. -/
def usageMessage (argv0 : String) : String :=
  "Error: missing PDF file\nUsage: python " ++ argv0 ++ " <path-to-pdf-file>"

/-- The message printed at line 29 when the given path does not exist. -/
def existenceMessage (pdfPath : String) : String :=
  "Error: PDF file '" ++ pdfPath ++ "' does not exist"

/-- The environment the startup script observes: the process argument
vector (`argv[0]` is the script name), the `os.path.exists` oracle, whether
`PdfReader(pdf_path)` succeeds, the document's pages with their embedded
images, whether the `images` directory already exists, and the names of the
files currently inside it. -/
structure StartupEnv where
  argv : List String
  fileExists : String → Bool
  pdfOk : Bool
  pdfPages : List (List Nat)
  imagesDirExists : Bool
  imagesDir : List String

/-- Outcome of running the module top level up to the point where the Qt
application would start: either `sys.exit(code)` after printing a message
(lines 25 and 30), or an uncaught exception from `PdfReader` (line 43), or
the viewer starts after the listed filesystem effects were performed. -/
inductive StartupResult where
  | exited : Nat → String → StartupResult
  | raised : StartupResult
  | started : List FsEffect → Bool → StartupResult
deriving DecidableEq, Repr

/-- The module-level script of `viewer.py`, lines 21-67, in source order:
argument check, existence check, `-b` membership test over the whole
`sys.argv`, `PdfReader` construction, then (only when not buffered) the
`images` folder creation, the purge of every `glob("images/*.png")` match,
and the extraction writes. -/
def runStartup (env : StartupEnv) : StartupResult :=
  if env.argv.length ≤ 1 then
    StartupResult.exited 1 (usageMessage (env.argv.headD ""))
  else
    let pdf_path := env.argv.getD 1 ""
    if env.fileExists pdf_path = false then
      StartupResult.exited 1 (existenceMessage pdf_path)
    else
      let use_buffered := env.argv.contains "-b"
      if env.pdfOk = false then
        StartupResult.raised
      else if use_buffered then
        StartupResult.started [] true
      else
        let mkEff := if env.imagesDirExists then [] else [FsEffect.mkdirImages]
        let purgeEff := (env.imagesDir.filter matchesPngGlob).map
          (fun g => FsEffect.removeFile ("images/" ++ g))
        let writeEff := (extractImages env.pdfPages).map
          (fun pr => FsEffect.writeFile pr.2)
        StartupResult.started (mkEff ++ purgeEff ++ writeEff) false

/-- The filesystem effects a startup outcome performed. -/
def effectsOf : StartupResult → List FsEffect
  | StartupResult.started effs _ => effs
  | _ => []

/-- The path removed by an effect, when it is a removal. -/
def delName : FsEffect → Option String
  | FsEffect.removeFile p => some p
  | _ => none

/-- The file paths a startup outcome deleted. -/
def deletedOf (r : StartupResult) : List String :=
  (effectsOf r).filterMap delName

lemma delName_removes (l : List String) :
    (l.map (fun g => FsEffect.removeFile ("images/" ++ g))).filterMap delName
      = l.map (fun g => "images/" ++ g) := by
  induction l with
  | nil => rfl
  | cons a l ih => simp [delName, ih]

lemma delName_writes (l : List (Nat × String)) :
    (l.map (fun pr => FsEffect.writeFile pr.2)).filterMap delName = [] := by
  induction l with
  | nil => rfl
  | cons a l ih => simp [delName, ih]

lemma delName_mkdir (b : Bool) :
    ((if b then ([] : List FsEffect) else [FsEffect.mkdirImages]).filterMap delName) = [] := by
  cases b <;> simp [delName]

/-- A concrete startup environment for the purge counterexample: a readable
PDF with no images, and an `images` folder already holding `foo.png` and
`notes.txt`. -/
def envPurge : StartupEnv :=
  { argv := ["viewer.py", "doc.pdf"]
    fileExists := fun _ => true
    pdfOk := true
    pdfPages := []
    imagesDirExists := true
    imagesDir := ["foo.png", "notes.txt"] }

/-- C3 counterexample: the claim predicts that a non-skipped extraction run
deletes exactly the files matching the image-output pattern
`image_NNNNNN.png`; on a folder holding `foo.png` (which does not match the
pattern) the code deletes `foo.png` anyway, because the purge glob is the
broader `*.png`.  So the deleted list differs from the pattern-filtered
list at this input. -/
theorem purge_pattern_counterexample :
    deletedOf (runStartup envPurge)
        ≠ (envPurge.imagesDir.filter matchesImageOutputPattern).map
            (fun g => "images/" ++ g) ∧
    matchesImageOutputPattern "foo.png" = false ∧
    deletedOf (runStartup envPurge) = ["images/foo.png"] := by
  refine ⟨?_, by decide, by decide⟩
  decide

/-- C3 as amended: before a non-skipped extraction run, exactly the files in
the `images` directory matched by the glob `*.png` (any non-hidden name
ending in `.png`) are deleted, and no other file is removed. -/
theorem purge_removes_exactly_png_glob (env : StartupEnv)
    (hargv : 1 < env.argv.length)
    (hex : env.fileExists (env.argv.getD 1 "") = true)
    (hb : env.argv.contains "-b" = false)
    (hpdf : env.pdfOk = true) :
    deletedOf (runStartup env)
      = (env.imagesDir.filter matchesPngGlob).map (fun g => "images/" ++ g) := by
  have h1 : ¬ env.argv.length ≤ 1 := by omega
  simp only [runStartup, if_neg h1, hex, hb, hpdf]
  simp only [Bool.true_eq_false, Bool.false_eq_true, if_false, deletedOf, effectsOf,
    List.filterMap_append, delName_removes, delName_writes, delName_mkdir]
  simp

/-- C3 witness: the amended purge theorem applied to `envPurge`. -/
theorem purge_removes_exactly_png_glob_witness :
    (1 < envPurge.argv.length ∧
      envPurge.fileExists (envPurge.argv.getD 1 "") = true ∧
      envPurge.argv.contains "-b" = false ∧ envPurge.pdfOk = true) ∧
    deletedOf (runStartup envPurge)
      = (envPurge.imagesDir.filter matchesPngGlob).map (fun g => "images/" ++ g) :=
  ⟨⟨by decide, by decide, by decide, by decide⟩,
    purge_removes_exactly_png_glob envPurge (by decide) (by decide) (by decide) (by decide)⟩

/-- C7: with no argument beyond the program name the script exits with
status 1 printing the usage message; with a path that does not exist it
exits with status 1 printing the existence message; in both cases the
outcome carries no filesystem effect — nothing in the `images` folder is
created, deleted or written. -/
theorem usage_and_existence_errors (env : StartupEnv) :
    (env.argv.length ≤ 1 →
      runStartup env = StartupResult.exited 1 (usageMessage (env.argv.headD "")) ∧
      effectsOf (runStartup env) = []) ∧
    (1 < env.argv.length → env.fileExists (env.argv.getD 1 "") = false →
      runStartup env = StartupResult.exited 1 (existenceMessage (env.argv.getD 1 "")) ∧
      effectsOf (runStartup env) = []) := by
  constructor
  · intro h
    rw [runStartup, if_pos h]
    exact ⟨rfl, rfl⟩
  · intro h hex
    rw [runStartup, if_neg (by omega : ¬ env.argv.length ≤ 1)]
    simp only [hex]
    exact ⟨rfl, rfl⟩

/-- A concrete environment invoked with no PDF argument. -/
def envNoArg : StartupEnv :=
  { argv := ["viewer.py"]
    fileExists := fun _ => true
    pdfOk := true
    pdfPages := []
    imagesDirExists := true
    imagesDir := [] }

/-- A concrete environment whose PDF path never resolves to a file. -/
def envMissingFile : StartupEnv :=
  { argv := ["viewer.py", "nope.pdf"]
    fileExists := fun _ => false
    pdfOk := true
    pdfPages := []
    imagesDirExists := true
    imagesDir := [] }

/-- C7 witness: the error-path theorem applied to two concrete
environments, one with an empty argument tail and one whose path never
exists. -/
theorem usage_and_existence_errors_witness :
    (runStartup envNoArg = StartupResult.exited 1 (usageMessage "viewer.py")) ∧
    (runStartup envMissingFile = StartupResult.exited 1 (existenceMessage "nope.pdf")) :=
  ⟨((usage_and_existence_errors _).1 (by decide)).1,
   ((usage_and_existence_errors _).2 (by decide) rfl).1⟩

/-- C9: the script constructs `PdfReader(pdf_path)` before the viewer
starts even when `-b` is given, so an unreadable PDF aborts the run in
buffered mode too (with no filesystem effect); when the PDF parses,
buffered mode starts the viewer having performed no deletion and no
extraction write. -/
theorem buffered_mode_still_parses_pdf (env : StartupEnv)
    (hargv : 1 < env.argv.length)
    (hex : env.fileExists (env.argv.getD 1 "") = true)
    (hb : env.argv.contains "-b" = true) :
    (env.pdfOk = false →
      runStartup env = StartupResult.raised ∧ effectsOf (runStartup env) = []) ∧
    (env.pdfOk = true →
      runStartup env = StartupResult.started [] true) := by
  constructor
  · intro hpdf
    rw [runStartup, if_neg (by omega : ¬ env.argv.length ≤ 1)]
    simp only [hex, hpdf]
    exact ⟨rfl, rfl⟩
  · intro hpdf
    rw [runStartup, if_neg (by omega : ¬ env.argv.length ≤ 1)]
    simp only [hex, hpdf, hb]
    simp

/-- A concrete buffered-mode environment whose PDF fails to parse. -/
def envBufferedBadPdf : StartupEnv :=
  { argv := ["viewer.py", "doc.pdf", "-b"]
    fileExists := fun _ => true
    pdfOk := false
    pdfPages := []
    imagesDirExists := true
    imagesDir := ["image_000000.png"] }

/-- A concrete buffered-mode environment whose PDF parses. -/
def envBufferedOkPdf : StartupEnv :=
  { argv := ["viewer.py", "doc.pdf", "-b"]
    fileExists := fun _ => true
    pdfOk := true
    pdfPages := [[7]]
    imagesDirExists := true
    imagesDir := ["image_000000.png"] }

/-- C9 witness: the buffered-mode theorem applied to a concrete corrupt-PDF
environment and a concrete readable-PDF environment. -/
theorem buffered_mode_still_parses_pdf_witness :
    (runStartup envBufferedBadPdf = StartupResult.raised) ∧
    (runStartup envBufferedOkPdf = StartupResult.started [] true) :=
  ⟨((buffered_mode_still_parses_pdf _ (by decide) rfl (by decide)).1 rfl).1,
   (buffered_mode_still_parses_pdf _ (by decide) rfl (by decide)).2 rfl⟩

-- ============================================================================
-- ImageViewer (lines 73-188 of `viewer.py`)
-- ============================================================================

/-- Python's `%` on integers: raises `ZeroDivisionError` on a zero divisor,
otherwise (for the non-negative divisors occurring here, list lengths) the
remainder in `[0, n)`. -/
def pymod (a n : Int) : Option Int :=
  if n = 0 then none else some (a % n)

/-- Python list subscription `l[i]`: non-negative indices from the front,
negative indices from the back, `IndexError` (modelled `none`) outside
`[-len(l), len(l))`. -/
def pyGet {α : Type} (l : List α) (i : Int) : Option α :=
  if 0 ≤ i then l.get? i.toNat
  else if -(l.length : Int) ≤ i then l.get? (l.length - (-i).toNat)
  else none

/-- Byte-wise character comparison backing Python's string `<=`. -/
def charLeB (a b : Char) : Bool := a.toNat ≤ b.toNat

/-- Lexicographic comparison of character lists, as Python compares
strings: the first differing position decides, a prefix sorts first. -/
def listLeB : List Char → List Char → Bool
  | [], _ => true
  | _ :: _, [] => false
  | a :: as, b :: bs => if a = b then listLeB as bs else charLeB a b

/-- Python string `<=`, used by `sorted(...)`. -/
def strLeB (a b : String) : Bool := listLeB a.data b.data

/-- The state of an `ImageViewer` window: the sorted file list, the current
index, and the always-on-top flag (lines 93-94 and 108). -/
structure ViewerState where
  image_files : List String
  current_index : Int
  alwaysOnTop : Bool
deriving DecidableEq, Repr

/-- The `__init__` of `ImageViewer` with `image_folder = "images"`
(lines 85-110): `glob(os.path.join(image_folder, "*.png"))` over the
folder's entries, sorted, with `current_index = 0` and `alwaysOnTop`
cleared.  The input is the list of file names inside `images/`. -/
def viewerInit (folderListing : List String) : ViewerState :=
  { image_files :=
      ((folderListing.filter matchesPngGlob).map
        (fun g => "images/" ++ g)).insertionSort (fun x y => strLeB x y)
    current_index := 0
    alwaysOnTop := false }

/-- `update_image` (lines 112-119): when the file list is non-empty, load
the file at `current_index` and display it (outer `some`: no exception;
inner value: the displayed path, `none` when nothing is rendered);
an out-of-range subscription is an uncaught `IndexError` (`none`). -/
def update_image (s : ViewerState) : Option (Option String) :=
  if s.image_files.isEmpty then some (none : Option String)
  else
    match pyGet s.image_files s.current_index with
    | some f => some (some f)
    | none => none

/-- A navigation handler's trailing `self.update_image()` call: the state
is returned unchanged when the render does not raise. -/
def afterNav (s : ViewerState) : Option ViewerState :=
  (update_image s).map (fun _ => s)

/-- The keyboard keys distinguished by `keyPressEvent` (lines 135-180). -/
inductive Key where
  | right | down | space | pageDown
  | left | up | pageUp
  | r | t | a | home | endKey | escape | q | h | other
deriving DecidableEq, Repr

/-- `keyPressEvent` (lines 135-180): arrow/space/page keys move
`current_index` by `±1 mod len(image_files)`, `R` refreshes, `T`/`A`
toggles the always-on-top flag, `Home`/`End` jump to the first/last index,
`Escape`/`Q` close the window and `H` shows a modal; every navigation
branch ends in `self.update_image()`. -/
def keyPressEvent (s : ViewerState) (k : Key) : Option ViewerState :=
  match k with
  | .right | .down | .space | .pageDown =>
      (pymod (s.current_index + 1) (s.image_files.length : Int)).bind
        (fun i => afterNav { s with current_index := i })
  | .left | .up | .pageUp =>
      (pymod (s.current_index - 1) (s.image_files.length : Int)).bind
        (fun i => afterNav { s with current_index := i })
  | .r => afterNav s
  | .t | .a => some { s with alwaysOnTop := !s.alwaysOnTop }
  | .home => afterNav { s with current_index := 0 }
  | .endKey => afterNav { s with current_index := (s.image_files.length : Int) - 1 }
  | .escape | .q => some s
  | .h => some s
  | .other => some s

/-- `wheelEvent` (lines 121-133): a positive `angleDelta().y()` moves to
the previous image, any other value to the next, both modulo the list
length, followed by `self.update_image()`. -/
def wheelEvent (s : ViewerState) (angleDeltaY : Int) : Option ViewerState :=
  if 0 < angleDeltaY then
    (pymod (s.current_index - 1) (s.image_files.length : Int)).bind
      (fun i => afterNav { s with current_index := i })
  else
    (pymod (s.current_index + 1) (s.image_files.length : Int)).bind
      (fun i => afterNav { s with current_index := i })

/-- `resizeEvent` (lines 182-188): re-render only. -/
def resizeEvent (s : ViewerState) : Option ViewerState :=
  afterNav s

/-- One input event of the viewer's event loop. -/
inductive VEvent where
  | wheel : Int → VEvent
  | key : Key → VEvent
  | resize : VEvent
deriving DecidableEq, Repr

/-- Dispatch of one event to the overridden handler. -/
def handleEvent (s : ViewerState) : VEvent → Option ViewerState
  | .wheel dy => wheelEvent s dy
  | .key k => keyPressEvent s k
  | .resize => resizeEvent s

/-- The `ViewerState` index invariant from the spec's data model. -/
def viewerInv (s : ViewerState) : Prop :=
  0 ≤ s.current_index ∧ s.current_index < (s.image_files.length : Int)

-- Basic facts about the Python primitives.

lemma pymod_pos (x n : Int) (h : 0 < n) : pymod x n = some (x % n) := by
  simp [pymod, h.ne']

lemma emod_bounds (x n : Int) (h : 0 < n) : 0 ≤ x % n ∧ x % n < n :=
  ⟨Int.emod_nonneg x h.ne', Int.emod_lt_of_pos x h⟩

lemma pyGet_valid {α : Type} (l : List α) (i : Int) (h0 : 0 ≤ i)
    (h1 : i < (l.length : Int)) : ∃ x, pyGet l i = some x := by
  have hlt : i.toNat < l.length := by omega
  refine ⟨l.get ⟨i.toNat, hlt⟩, ?_⟩
  simp [pyGet, h0, List.get?_eq_get hlt]

lemma update_image_valid (s : ViewerState) (h0 : 0 ≤ s.current_index)
    (h1 : s.current_index < (s.image_files.length : Int)) :
    ∃ f, update_image s = some (some f) := by
  obtain ⟨x, hx⟩ := pyGet_valid s.image_files s.current_index h0 h1
  have hne : s.image_files.isEmpty = false := by
    cases hf : s.image_files with
    | nil => rw [hf] at h1; simp at h1; omega
    | cons y ys => simp [hf]
  exact ⟨x, by simp [update_image, hne, hx]⟩

lemma afterNav_some (s : ViewerState) (h0 : 0 ≤ s.current_index)
    (h1 : s.current_index < (s.image_files.length : Int)) :
    afterNav s = some s := by
  obtain ⟨f, hf⟩ := update_image_valid s h0 h1
  simp [afterNav, hf]

lemma length_pos_int (s : ViewerState) (h : s.image_files ≠ []) :
    0 < (s.image_files.length : Int) := by
  have := List.length_pos.mpr h
  omega

lemma key_next_eq (s : ViewerState) (h : s.image_files ≠ []) (k : Key)
    (hk : k = Key.right ∨ k = Key.down ∨ k = Key.space ∨ k = Key.pageDown) :
    keyPressEvent s k
      = some { s with current_index :=
          (s.current_index + 1) % (s.image_files.length : Int) } := by
  have hN := length_pos_int s h
  obtain ⟨h0, h1⟩ := emod_bounds (s.current_index + 1) (s.image_files.length : Int) hN
  have hnav : afterNav { s with current_index :=
      (s.current_index + 1) % (s.image_files.length : Int) }
      = some { s with current_index :=
          (s.current_index + 1) % (s.image_files.length : Int) } :=
    afterNav_some _ h0 h1
  rcases hk with hk | hk | hk | hk <;> subst hk <;>
    simp [keyPressEvent, pymod_pos _ _ hN, hnav]

lemma key_prev_eq (s : ViewerState) (h : s.image_files ≠ []) (k : Key)
    (hk : k = Key.left ∨ k = Key.up ∨ k = Key.pageUp) :
    keyPressEvent s k
      = some { s with current_index :=
          (s.current_index - 1) % (s.image_files.length : Int) } := by
  have hN := length_pos_int s h
  obtain ⟨h0, h1⟩ := emod_bounds (s.current_index - 1) (s.image_files.length : Int) hN
  have hnav : afterNav { s with current_index :=
      (s.current_index - 1) % (s.image_files.length : Int) }
      = some { s with current_index :=
          (s.current_index - 1) % (s.image_files.length : Int) } :=
    afterNav_some _ h0 h1
  rcases hk with hk | hk | hk <;> subst hk <;>
    simp [keyPressEvent, pymod_pos _ _ hN, hnav]

lemma wheel_eq (s : ViewerState) (h : s.image_files ≠ []) (dy : Int) :
    wheelEvent s dy
      = some { s with current_index :=
          (if 0 < dy then s.current_index - 1 else s.current_index + 1)
            % (s.image_files.length : Int) } := by
  have hN := length_pos_int s h
  by_cases hdy : 0 < dy
  · obtain ⟨h0, h1⟩ := emod_bounds (s.current_index - 1) (s.image_files.length : Int) hN
    have hnav : afterNav { s with current_index :=
        (s.current_index - 1) % (s.image_files.length : Int) }
        = some { s with current_index :=
            (s.current_index - 1) % (s.image_files.length : Int) } :=
      afterNav_some _ h0 h1
    simp [wheelEvent, hdy, pymod_pos _ _ hN, hnav]
  · obtain ⟨h0, h1⟩ := emod_bounds (s.current_index + 1) (s.image_files.length : Int) hN
    have hnav : afterNav { s with current_index :=
        (s.current_index + 1) % (s.image_files.length : Int) }
        = some { s with current_index :=
            (s.current_index + 1) % (s.image_files.length : Int) } :=
      afterNav_some _ h0 h1
    simp [wheelEvent, hdy, pymod_pos _ _ hN, hnav]

lemma key_home_eq (s : ViewerState) (h : s.image_files ≠ []) :
    keyPressEvent s Key.home = some { s with current_index := 0 } := by
  have hN := length_pos_int s h
  exact afterNav_some _ le_rfl hN

lemma key_end_eq (s : ViewerState) (h : s.image_files ≠ []) :
    keyPressEvent s Key.endKey
      = some { s with current_index := (s.image_files.length : Int) - 1 } := by
  have hN := length_pos_int s h
  have h0 : (0 : Int) ≤ (s.image_files.length : Int) - 1 := by omega
  have h1 : (s.image_files.length : Int) - 1 < (s.image_files.length : Int) := by omega
  exact afterNav_some { s with current_index := (s.image_files.length : Int) - 1 } h0 h1

/-- C1: on an empty image set the wheel handler and the Next/Previous key
handlers all evaluate `(current_index ± 1) % len(image_files)` with
`len(image_files) == 0`, which in Python raises `ZeroDivisionError`
(modelled `none`): they are not non-raising no-ops. -/
theorem empty_nav_division_by_zero :
    wheelEvent ⟨[], 0, false⟩ 120 = none ∧
    wheelEvent ⟨[], 0, false⟩ (-120) = none ∧
    keyPressEvent ⟨[], 0, false⟩ Key.right = none ∧
    keyPressEvent ⟨[], 0, false⟩ Key.down = none ∧
    keyPressEvent ⟨[], 0, false⟩ Key.space = none ∧
    keyPressEvent ⟨[], 0, false⟩ Key.pageDown = none ∧
    keyPressEvent ⟨[], 0, false⟩ Key.left = none ∧
    keyPressEvent ⟨[], 0, false⟩ Key.up = none ∧
    keyPressEvent ⟨[], 0, false⟩ Key.pageUp = none := by
  refine ⟨?_, ?_, ?_, ?_, ?_, ?_, ?_, ?_, ?_⟩ <;> rfl

/-- C4: on every non-empty image set, the Next keys (Right, Down, Space,
PageDown) set `current_index` to `(current_index + 1) mod N`, the Previous
keys (Left, Up, PageUp) set it to `(current_index - 1) mod N`, wheel-up
(positive `angleDelta().y()`) acts as Previous and wheel-down (negative
`angleDelta().y()`) as Next. -/
theorem nav_modular_arithmetic (s : ViewerState) (h : s.image_files ≠ []) :
    (∀ k : Key, k = Key.right ∨ k = Key.down ∨ k = Key.space ∨ k = Key.pageDown →
      keyPressEvent s k
        = some { s with current_index :=
            (s.current_index + 1) % (s.image_files.length : Int) }) ∧
    (∀ k : Key, k = Key.left ∨ k = Key.up ∨ k = Key.pageUp →
      keyPressEvent s k
        = some { s with current_index :=
            (s.current_index - 1) % (s.image_files.length : Int) }) ∧
    (∀ dy : Int, 0 < dy →
      wheelEvent s dy
        = some { s with current_index :=
            (s.current_index - 1) % (s.image_files.length : Int) }) ∧
    (∀ dy : Int, dy < 0 →
      wheelEvent s dy
        = some { s with current_index :=
            (s.current_index + 1) % (s.image_files.length : Int) }) := by
  refine ⟨fun k hk => key_next_eq s h k hk, fun k hk => key_prev_eq s h k hk, ?_, ?_⟩
  · intro dy hdy
    rw [wheel_eq s h dy, if_pos hdy]
  · intro dy hdy
    rw [wheel_eq s h dy, if_neg (by omega)]

/-- C4 witness: the navigation theorem applied to a three-image state with
`current_index = 2`. -/
theorem nav_modular_arithmetic_witness :
    (⟨["images/a.png", "images/b.png", "images/c.png"], 2, false⟩ : ViewerState).image_files ≠ [] ∧
    keyPressEvent ⟨["images/a.png", "images/b.png", "images/c.png"], 2, false⟩ Key.right
      = some ⟨["images/a.png", "images/b.png", "images/c.png"], (2 + 1) % (3 : Int), false⟩ :=
  ⟨by decide,
    (nav_modular_arithmetic ⟨["images/a.png", "images/b.png", "images/c.png"], 2, false⟩
      (by decide)).1 Key.right (Or.inl rfl)⟩

/-- C6: on every non-empty image set, the Home key sets `current_index`
to `0` and the End key sets it to `N - 1`. -/
theorem home_end_jump (s : ViewerState) (h : s.image_files ≠ []) :
    keyPressEvent s Key.home = some { s with current_index := 0 } ∧
    keyPressEvent s Key.endKey
      = some { s with current_index := (s.image_files.length : Int) - 1 } :=
  ⟨key_home_eq s h, key_end_eq s h⟩

/-- C6 witness: the Home/End theorem applied to a two-image state. -/
theorem home_end_jump_witness :
    (⟨["images/a.png", "images/b.png"], 1, false⟩ : ViewerState).image_files ≠ [] ∧
    keyPressEvent ⟨["images/a.png", "images/b.png"], 1, false⟩ Key.home
      = some ⟨["images/a.png", "images/b.png"], 0, false⟩ ∧
    keyPressEvent ⟨["images/a.png", "images/b.png"], 1, false⟩ Key.endKey
      = some ⟨["images/a.png", "images/b.png"], (2 : Int) - 1, false⟩ :=
  ⟨by decide, (home_end_jump ⟨["images/a.png", "images/b.png"], 1, false⟩ (by decide)).1,
    (home_end_jump ⟨["images/a.png", "images/b.png"], 1, false⟩ (by decide)).2⟩

/-- Iterated Next presses (the Right key), chained through the possibility
of an exception in a handler. -/
def iterNext : Nat → ViewerState → Option ViewerState
  | 0, s => some s
  | n + 1, s => (keyPressEvent s Key.right).bind (iterNext n)

lemma iterNext_eq (n : Nat) :
    ∀ s : ViewerState, s.image_files ≠ [] →
      0 ≤ s.current_index → s.current_index < (s.image_files.length : Int) →
      iterNext n s
        = some { s with current_index :=
            (s.current_index + n) % (s.image_files.length : Int) } := by
  induction n with
  | zero =>
      intro s h h0 h1
      have : (s.current_index + (0 : Nat)) % (s.image_files.length : Int)
          = s.current_index := by
        simp [Int.emod_eq_of_lt h0 h1]
      rw [iterNext, this]
  | succ n ih =>
      intro s h h0 h1
      have hN := length_pos_int s h
      rw [iterNext, key_next_eq s h Key.right (Or.inl rfl), Option.some_bind]
      obtain ⟨g0, g1⟩ := emod_bounds (s.current_index + 1) (s.image_files.length : Int) hN
      rw [ih { s with current_index :=
          (s.current_index + 1) % (s.image_files.length : Int) } h g0 g1]
      have : ((s.current_index + 1) % (s.image_files.length : Int) + (n : Int))
            % (s.image_files.length : Int)
          = (s.current_index + ((n : Int) + 1)) % (s.image_files.length : Int) := by
        rw [Int.emod_add_emod]
        ring_nf
      simp only [this]
      norm_cast

lemma emod_cancel_of_lt (c N : Int) (h0 : 0 ≤ c) (h1 : c < N) :
    (c + N) % N = c := by
  have h := Int.add_mul_emod_self_left c N 1
  rw [mul_one] at h
  rw [h, Int.emod_eq_of_lt h0 h1]

/-- C5: from any state satisfying the index invariant on a non-empty image
set of size `N`, pressing Next `N` times returns to the same state, and
Next followed by Previous (as well as Previous followed by Next) restores
the state. -/
theorem next_cycle_and_inverse (s : ViewerState) (h : s.image_files ≠ [])
    (h0 : 0 ≤ s.current_index)
    (h1 : s.current_index < (s.image_files.length : Int)) :
    iterNext s.image_files.length s = some s ∧
    (keyPressEvent s Key.right).bind (fun t => keyPressEvent t Key.left) = some s ∧
    (keyPressEvent s Key.left).bind (fun t => keyPressEvent t Key.right) = some s := by
  have hN := length_pos_int s h
  set N : Int := (s.image_files.length : Int) with hNdef
  refine ⟨?_, ?_, ?_⟩
  · rw [iterNext_eq s.image_files.length s h h0 h1]
    rw [show ((s.current_index + (s.image_files.length : Nat)) % N)
        = (s.current_index + N) % N from by norm_cast]
    rw [emod_cancel_of_lt s.current_index N h0 h1]
  · rw [key_next_eq s h Key.right (Or.inl rfl), Option.some_bind]
    obtain ⟨g0, g1⟩ := emod_bounds (s.current_index + 1) N hN
    rw [key_prev_eq { s with current_index := (s.current_index + 1) % N } h Key.left
      (Or.inl rfl)]
    have : ((s.current_index + 1) % N - 1) % N = s.current_index := by
      rw [Int.sub_emod ((s.current_index + 1) % N) 1 N,
        Int.emod_emod_of_dvd (s.current_index + 1) dvd_rfl, ← Int.sub_emod,
        add_sub_cancel_right, Int.emod_eq_of_lt h0 h1]
    simp only [this]
  · rw [key_prev_eq s h Key.left (Or.inl rfl), Option.some_bind]
    obtain ⟨g0, g1⟩ := emod_bounds (s.current_index - 1) N hN
    rw [key_next_eq { s with current_index := (s.current_index - 1) % N } h Key.right
      (Or.inl rfl)]
    have : ((s.current_index - 1) % N + 1) % N = s.current_index := by
      rw [Int.emod_add_emod, sub_add_cancel, Int.emod_eq_of_lt h0 h1]
    simp only [this]

/-- C5 witness: the cycle/inverse theorem applied to a two-image state at
index 1. -/
theorem next_cycle_and_inverse_witness :
    ((⟨["images/a.png", "images/b.png"], 1, false⟩ : ViewerState).image_files ≠ [] ∧
      (0 : Int) ≤ 1 ∧ (1 : Int) < 2) ∧
    iterNext 2 ⟨["images/a.png", "images/b.png"], 1, false⟩
      = some ⟨["images/a.png", "images/b.png"], 1, false⟩ :=
  ⟨⟨by decide, by decide, by decide⟩,
    (next_cycle_and_inverse ⟨["images/a.png", "images/b.png"], 1, false⟩
      (by decide) (by decide) (by decide)).1⟩

/-- C8: on a non-empty image set the index invariant
`0 <= current_index < len(image_files)` holds after `__init__` and is
preserved (with the file list unchanged) by every event handler: wheel,
every navigation key, Home, End, Refresh, toggle-always-on-top, Help,
Escape/Q, unrecognized keys, and resize — and no such handler raises. -/
theorem index_invariant_preserved :
    (∀ listing : List String, listing.filter matchesPngGlob ≠ [] →
      viewerInv (viewerInit listing)) ∧
    (∀ (s : ViewerState) (e : VEvent), s.image_files ≠ [] → viewerInv s →
      ∃ s', handleEvent s e = some s' ∧ viewerInv s' ∧
        s'.image_files = s.image_files) := by
  constructor
  · intro listing hl
    have hlen : ((listing.filter matchesPngGlob).map
        (fun g => "images/" ++ g)).length = (listing.filter matchesPngGlob).length := by
      rw [List.length_map]
    have hpos : 0 < (listing.filter matchesPngGlob).length := List.length_pos.mpr hl
    refine ⟨le_rfl, ?_⟩
    show (0 : Int) < _
    rw [viewerInit]
    simp only [List.length_insertionSort, hlen]
    omega
  · intro s e h hinv
    obtain ⟨h0, h1⟩ := hinv
    have hN := length_pos_int s h
    cases e with
    | wheel dy =>
        refine ⟨{ s with current_index :=
            (if 0 < dy then s.current_index - 1 else s.current_index + 1)
              % (s.image_files.length : Int) }, ?_, ?_, rfl⟩
        · rw [handleEvent, wheel_eq s h dy]
        · by_cases hdy : 0 < dy
          · simp only [if_pos hdy]
            exact emod_bounds (s.current_index - 1) (s.image_files.length : Int) hN
          · simp only [if_neg hdy]
            exact emod_bounds (s.current_index + 1) (s.image_files.length : Int) hN
    | resize =>
        exact ⟨s, afterNav_some s h0 h1, ⟨h0, h1⟩, rfl⟩
    | key k =>
        cases k with
        | right =>
            refine ⟨{ s with current_index :=
                (s.current_index + 1) % (s.image_files.length : Int) }, ?_, ?_, rfl⟩
            · rw [handleEvent, key_next_eq s h Key.right (Or.inl rfl)]
            · exact emod_bounds (s.current_index + 1) (s.image_files.length : Int) hN
        | down =>
            refine ⟨{ s with current_index :=
                (s.current_index + 1) % (s.image_files.length : Int) }, ?_, ?_, rfl⟩
            · rw [handleEvent, key_next_eq s h Key.down (Or.inr (Or.inl rfl))]
            · exact emod_bounds (s.current_index + 1) (s.image_files.length : Int) hN
        | space =>
            refine ⟨{ s with current_index :=
                (s.current_index + 1) % (s.image_files.length : Int) }, ?_, ?_, rfl⟩
            · rw [handleEvent, key_next_eq s h Key.space (Or.inr (Or.inr (Or.inl rfl)))]
            · exact emod_bounds (s.current_index + 1) (s.image_files.length : Int) hN
        | pageDown =>
            refine ⟨{ s with current_index :=
                (s.current_index + 1) % (s.image_files.length : Int) }, ?_, ?_, rfl⟩
            · rw [handleEvent, key_next_eq s h Key.pageDown (Or.inr (Or.inr (Or.inr rfl)))]
            · exact emod_bounds (s.current_index + 1) (s.image_files.length : Int) hN
        | left =>
            refine ⟨{ s with current_index :=
                (s.current_index - 1) % (s.image_files.length : Int) }, ?_, ?_, rfl⟩
            · rw [handleEvent, key_prev_eq s h Key.left (Or.inl rfl)]
            · exact emod_bounds (s.current_index - 1) (s.image_files.length : Int) hN
        | up =>
            refine ⟨{ s with current_index :=
                (s.current_index - 1) % (s.image_files.length : Int) }, ?_, ?_, rfl⟩
            · rw [handleEvent, key_prev_eq s h Key.up (Or.inr (Or.inl rfl))]
            · exact emod_bounds (s.current_index - 1) (s.image_files.length : Int) hN
        | pageUp =>
            refine ⟨{ s with current_index :=
                (s.current_index - 1) % (s.image_files.length : Int) }, ?_, ?_, rfl⟩
            · rw [handleEvent, key_prev_eq s h Key.pageUp (Or.inr (Or.inr rfl))]
            · exact emod_bounds (s.current_index - 1) (s.image_files.length : Int) hN
        | r =>
            exact ⟨s, afterNav_some s h0 h1, ⟨h0, h1⟩, rfl⟩
        | t =>
            exact ⟨{ s with alwaysOnTop := !s.alwaysOnTop }, rfl, ⟨h0, h1⟩, rfl⟩
        | a =>
            exact ⟨{ s with alwaysOnTop := !s.alwaysOnTop }, rfl, ⟨h0, h1⟩, rfl⟩
        | home =>
            refine ⟨{ s with current_index := 0 }, ?_, ⟨le_rfl, hN⟩, rfl⟩
            rw [handleEvent, key_home_eq s h]
        | endKey =>
            refine ⟨{ s with current_index := (s.image_files.length : Int) - 1 },
              ?_, ⟨?_, ?_⟩, rfl⟩
            · rw [handleEvent, key_end_eq s h]
            · show (0 : Int) ≤ (s.image_files.length : Int) - 1
              omega
            · show (s.image_files.length : Int) - 1 < (s.image_files.length : Int)
              omega
        | escape => exact ⟨s, rfl, ⟨h0, h1⟩, rfl⟩
        | q => exact ⟨s, rfl, ⟨h0, h1⟩, rfl⟩
        | h => exact ⟨s, rfl, ⟨h0, h1⟩, rfl⟩
        | other => exact ⟨s, rfl, ⟨h0, h1⟩, rfl⟩

/-- C8 witness: the invariant theorem applied at a one-file listing and at
a concrete wheel-down event on a two-image state. -/
theorem index_invariant_preserved_witness :
    (["image_000000.png"].filter matchesPngGlob ≠ [] ∧
      viewerInv (viewerInit ["image_000000.png"])) ∧
    ((⟨["images/a.png", "images/b.png"], 0, false⟩ : ViewerState).image_files ≠ [] ∧
      viewerInv ⟨["images/a.png", "images/b.png"], 0, false⟩ ∧
      ∃ s', handleEvent ⟨["images/a.png", "images/b.png"], 0, false⟩ (VEvent.wheel (-120))
          = some s' ∧ viewerInv s' ∧
        s'.image_files = ["images/a.png", "images/b.png"]) :=
  ⟨⟨by decide, index_invariant_preserved.1 ["image_000000.png"] (by decide)⟩,
    ⟨by decide, ⟨by decide, by decide⟩,
      index_invariant_preserved.2 ⟨["images/a.png", "images/b.png"], 0, false⟩
        (VEvent.wheel (-120)) (by decide) ⟨by decide, by decide⟩⟩⟩

/-- C10: on an empty image set the End handler sets `current_index` to
`len([]) - 1 = -1` without raising (the guarded `update_image` renders
nothing), and the Home handler sets it to `0`, likewise rendering
nothing. -/
theorem empty_end_home (s : ViewerState) (h : s.image_files = []) :
    keyPressEvent s Key.endKey = some { s with current_index := -1 } ∧
    update_image { s with current_index := -1 } = some none ∧
    keyPressEvent s Key.home = some { s with current_index := 0 } ∧
    update_image { s with current_index := 0 } = some none := by
  obtain ⟨files, c, flag⟩ := s
  simp only at h
  subst h
  refine ⟨?_, by rfl, by rfl, by rfl⟩
  show afterNav _ = _
  norm_num [afterNav, update_image]

/-- C10 witness: the empty-set End/Home theorem applied to the empty
initial state. -/
theorem empty_end_home_witness :
    (⟨[], 0, false⟩ : ViewerState).image_files = [] ∧
    keyPressEvent ⟨[], 0, false⟩ Key.endKey = some ⟨[], -1, false⟩ ∧
    update_image ⟨[], -1, false⟩ = some none :=
  ⟨rfl, (empty_end_home ⟨[], 0, false⟩ rfl).1, (empty_end_home ⟨[], 0, false⟩ rfl).2.1⟩
